import Mathlib

/-!
Verification of the Cohen's d effect-size computation of this repository.

The function under study is `cohend` (notebook cell, `src/unnamed/part_001`):

  def cohend(d1, d2):
      n1, n2 = len(d1), len(d2)
      s1, s2 = var(d1, ddof=1), var(d2, ddof=1)
      s = sqrt(((n1 - 1) * s1 + (n2 - 1) * s2) / (n1 + n2 - 2))
      u1, u2 = mean(d1), mean(d2)
      return (u1 - u2) / s

Embedding choices, recorded once here:

* Samples are `List ℚ`.  Every IEEE floating-point observation is a rational
  number, and all the properties at stake are exact-arithmetic identities, so
  ℚ is the value domain of the inputs; float rounding is abstracted away, as
  it is in the specification's real-number contract.
* numpy's `mean` and `var(·, ddof=1)` produce the sentinel NaN (with a
  RuntimeWarning, never an exception) when a sample has fewer than two
  observations: for `n = 1` the variance is `0/0`, for `n = 0` already the
  mean is NaN, and NaN then propagates through every later arithmetic step.
  The embedding tracks this with `Option ℚ` (`none` = NaN) at the variance
  stage, where undefinedness can first arise.
* The final result lives in `PyFloat`: an ordinary (finite) real, or one of
  the non-finite float sentinels NaN, +inf and -inf that numpy float division
  produces when the pooled standard deviation is exactly zero.
* A Python call either returns a value or raises; the outcome type is
  `Except PyExc PyFloat`.  The body of `cohend` contains no raise site other
  than `math.sqrt` of a negative argument (a ValueError), and the pooled
  variance is proved nonnegative below, so that branch is unreachable; numpy
  never raises on the remaining operations, it returns NaN/inf with warnings.
  The error names of the specification's taxonomy are included in `PyExc` so
  that the specification's error-handling claims can be stated and compared
  against what the code actually produces.
-/

namespace EffectSize

/-- numpy `mean`: sum of the observations divided by their number.
For the empty list this formalisation yields `0/0 = 0` in ℚ where numpy
yields NaN; the discrepancy is unobservable in `cohend` because an empty
sample already makes the variance stage NaN (`none`), which decides the
result before the means are consulted. -/
def mean (d : List ℚ) : ℚ := d.sum / (d.length : ℚ)

/-- The sum of squared deviations from the mean, `Σ (x - mean d)^2`:
the numerator of numpy's variance. -/
def sqDevSum (d : List ℚ) : ℚ := (d.map (fun x => (x - mean d) ^ 2)).sum

/-- numpy `var(d, ddof=1)` as a total ℚ-valued expression:
`Σ (x - mean)^2 / (n - 1)`.  It is the value the code computes whenever
`n ≥ 2`; for `n ≤ 1` the code's value is NaN, tracked by `varOpt`. -/
def svar (d : List ℚ) : ℚ := sqDevSum d / ((d.length : ℚ) - 1)

/-- numpy `var(d, ddof=1)` with NaN tracking: `none` is the NaN that numpy
returns (with a RuntimeWarning) for a sample of fewer than 2 observations
(`0/0` when `n = 1`; mean already NaN when `n = 0`). -/
def varOpt (d : List ℚ) : Option ℚ :=
  if d.length < 2 then none else some (svar d)

/-- The pooled-variance expression of the code,
`((n1 - 1) * s1 + (n2 - 1) * s2) / (n1 + n2 - 2)`, as a total ℚ-valued
expression (the value under the radical before `sqrt` is applied). -/
def pooledQ (d1 d2 : List ℚ) : ℚ :=
  (((d1.length : ℚ) - 1) * svar d1 + ((d2.length : ℚ) - 1) * svar d2) /
    ((d1.length : ℚ) + (d2.length : ℚ) - 2)

/-- The pooled-variance expression with NaN tracking: if either variance is
NaN then so is the whole expression (NaN is absorbing for `*`, `+`, `/`,
including `0 * NaN` and `NaN / 0`); when both variances are defined, both
sample sizes are at least 2, so the denominator `n1 + n2 - 2 ≥ 2` and the
division is an ordinary one. -/
def pooledVar (d1 d2 : List ℚ) : Option ℚ :=
  match varOpt d1, varOpt d2 with
  | some s1, some s2 =>
      some ((((d1.length : ℚ) - 1) * s1 + ((d2.length : ℚ) - 1) * s2) /
        ((d1.length : ℚ) + (d2.length : ℚ) - 2))
  | _, _ => none

/-- A Python/numpy float result: an ordinary finite real, or one of the
non-finite sentinels NaN, +inf, -inf. -/
inductive PyFloat where
  | nan : PyFloat
  | inf : PyFloat
  | neginf : PyFloat
  | fin : ℝ → PyFloat

/-- Exceptions relevant to a call of `cohend`.  `valueError` is what
`math.sqrt` raises on a negative argument (the only raise site in the body;
proved unreachable below).  `invalidInput` and `degenerateInput` are the
error names of the specification's taxonomy, included so that the
specification's error-handling claims are statable; the code never
constructs either. -/
inductive PyExc where
  | invalidInput : PyExc
  | degenerateInput : PyExc
  | valueError : PyExc

/-- The embedding of `cohend`, following the source line by line.
* Variance-stage NaN (either sample shorter than 2, hence also the
  `n1 + n2 - 2 ≤ 0` case) propagates through `sqrt` and the final division:
  the call returns NaN.
* `math.sqrt pv` raises ValueError for `pv < 0` (proved unreachable since
  the pooled expression is nonnegative).
* `math.sqrt pv = 0` exactly when `pv = 0`; the final float division by zero
  then yields NaN when `u1 - u2 = 0` and ±inf by the sign of `u1 - u2`
  otherwise (IEEE semantics; numpy emits a RuntimeWarning and returns).
* Otherwise the result is the ordinary real `(u1 - u2) / sqrt pv`. -/
noncomputable def cohend (d1 d2 : List ℚ) : Except PyExc PyFloat :=
  match pooledVar d1 d2 with
  | none => Except.ok PyFloat.nan
  | some pv =>
      if pv < 0 then Except.error PyExc.valueError
      else if pv = 0 then
        if mean d1 = mean d2 then Except.ok PyFloat.nan
        else if mean d2 < mean d1 then Except.ok PyFloat.inf
        else Except.ok PyFloat.neginf
      else Except.ok (PyFloat.fin
        (((mean d1 - mean d2 : ℚ) : ℝ) / Real.sqrt ((pv : ℚ) : ℝ)))

/-! ### Spec-side formulas (for the refinement comparison of C1)

These three definitions follow the specification's words, not the code:
"`var1`, `var2` are the unbiased (Bessel-corrected, divisor `n-1`) sample
variances", "`s = sqrt( ((n1 - 1) * var1 + (n2 - 1) * var2) / (n1 + n2 - 2) )`",
"`d = (mean(sample1) - mean(sample2)) / s`". -/

/-- Spec-side: the Bessel-corrected (divisor `n - 1`) sample variance,
`Σ (x - mean)^2 / (n - 1)`. -/
def specVar (d : List ℚ) : ℚ :=
  (d.map (fun x => (x - mean d) ^ 2)).sum / ((d.length : ℚ) - 1)

/-- Spec-side: the pooled standard deviation
`s = sqrt( ((n1 - 1) * var1 + (n2 - 1) * var2) / (n1 + n2 - 2) )`. -/
noncomputable def specPooledSD (d1 d2 : List ℚ) : ℝ :=
  Real.sqrt (((((d1.length : ℚ) - 1) * specVar d1 + ((d2.length : ℚ) - 1) * specVar d2) /
    ((d1.length : ℚ) + (d2.length : ℚ) - 2) : ℚ) : ℝ)

/-- Spec-side: `d = (mean(sample1) - mean(sample2)) / s`. -/
noncomputable def specCohend (d1 d2 : List ℚ) : ℝ :=
  ((mean d1 - mean d2 : ℚ) : ℝ) / specPooledSD d1 d2

/-! ### Bridge lemmas: reducing the NaN-tracked pipeline under size hypotheses -/

lemma varOpt_of_two_le {d : List ℚ} (h : 2 ≤ d.length) : varOpt d = some (svar d) := by
  simp [varOpt, Nat.not_lt.mpr h]

lemma varOpt_of_short {d : List ℚ} (h : d.length < 2) : varOpt d = none := by
  simp [varOpt, h]

lemma pooledVar_eq {d1 d2 : List ℚ} (h1 : 2 ≤ d1.length) (h2 : 2 ≤ d2.length) :
    pooledVar d1 d2 = some (pooledQ d1 d2) := by
  unfold pooledVar
  rw [varOpt_of_two_le h1, varOpt_of_two_le h2]
  rfl

lemma pooledVar_none {d1 d2 : List ℚ} (h : d1.length < 2 ∨ d2.length < 2) :
    pooledVar d1 d2 = none := by
  unfold pooledVar
  rcases h with h | h
  · rw [varOpt_of_short h]
  · rw [varOpt_of_short h]
    rcases varOpt d1 with _ | s1 <;> rfl

lemma sqDevSum_nonneg (d : List ℚ) : 0 ≤ sqDevSum d := by
  refine List.sum_nonneg ?_
  intro x hx
  rw [List.mem_map] at hx
  obtain ⟨a, _, rfl⟩ := hx
  exact sq_nonneg _

lemma svar_nonneg {d : List ℚ} (h : 2 ≤ d.length) : 0 ≤ svar d := by
  refine div_nonneg (sqDevSum_nonneg d) ?_
  have hc : (2 : ℚ) ≤ (d.length : ℚ) := by exact_mod_cast h
  linarith

lemma pooledQ_nonneg {d1 d2 : List ℚ} (h1 : 2 ≤ d1.length) (h2 : 2 ≤ d2.length) :
    0 ≤ pooledQ d1 d2 := by
  have hc1 : (2 : ℚ) ≤ (d1.length : ℚ) := by exact_mod_cast h1
  have hc2 : (2 : ℚ) ≤ (d2.length : ℚ) := by exact_mod_cast h2
  refine div_nonneg (add_nonneg ?_ ?_) (by linarith)
  · exact mul_nonneg (by linarith) (svar_nonneg h1)
  · exact mul_nonneg (by linarith) (svar_nonneg h2)

/-- Under the size preconditions and a strictly positive pooled variance,
`cohend` takes its ordinary branch and returns the finite real quotient. -/
lemma cohend_eq_fin {d1 d2 : List ℚ} (h1 : 2 ≤ d1.length) (h2 : 2 ≤ d2.length)
    (hp : 0 < pooledQ d1 d2) :
    cohend d1 d2 = Except.ok (PyFloat.fin
      (((mean d1 - mean d2 : ℚ) : ℝ) / Real.sqrt ((pooledQ d1 d2 : ℚ) : ℝ))) := by
  unfold cohend
  rw [pooledVar_eq h1 h2]
  simp [not_lt.mpr hp.le, hp.ne']

/-- An undersized sample makes the variance stage NaN and the whole call
return NaN. -/
lemma cohend_eq_nan_of_short {d1 d2 : List ℚ} (h : d1.length < 2 ∨ d2.length < 2) :
    cohend d1 d2 = Except.ok PyFloat.nan := by
  unfold cohend
  rw [pooledVar_none h]

/-! ### List-sum helpers -/

lemma sum_map_mul_const (k : ℚ) (f : ℚ → ℚ) :
    ∀ l : List ℚ, (l.map (fun x => k * f x)).sum = k * (l.map f).sum := by
  intro l
  induction l with
  | nil => simp
  | cons a t ih => simp [ih, mul_add]

lemma sum_map_add_const (c : ℚ) :
    ∀ l : List ℚ, (l.map (fun x => x + c)).sum = l.sum + (l.length : ℚ) * c := by
  intro l
  induction l with
  | nil => simp
  | cons a t ih =>
      simp only [List.map_cons, List.sum_cons, ih, List.length_cons]
      push_cast
      ring

/-! ### Behaviour of the statistics under scaling, translation and permutation -/

lemma sum_map_mul (k : ℚ) :
    ∀ l : List ℚ, (l.map (fun x => k * x)).sum = k * l.sum := by
  intro l
  induction l with
  | nil => simp
  | cons a t ih => simp [ih, mul_add]

lemma mean_map_mul (k : ℚ) (d : List ℚ) :
    mean (d.map (fun x => k * x)) = k * mean d := by
  unfold mean
  rw [List.length_map, sum_map_mul k, mul_div_assoc]

lemma mean_map_add {c : ℚ} {d : List ℚ} (h : 1 ≤ d.length) :
    mean (d.map (fun x => x + c)) = mean d + c := by
  unfold mean
  rw [List.length_map, sum_map_add_const c]
  have hn : ((d.length : ℚ)) ≠ 0 := by
    have : (1 : ℚ) ≤ (d.length : ℚ) := by exact_mod_cast h
    linarith
  field_simp
  ring

lemma sqDevSum_map_mul (k : ℚ) (d : List ℚ) :
    sqDevSum (d.map (fun x => k * x)) = k ^ 2 * sqDevSum d := by
  unfold sqDevSum
  rw [mean_map_mul, List.map_map]
  have hfun : ((fun x => (x - k * mean d) ^ 2) ∘ fun x => k * x)
      = fun x => k ^ 2 * (x - mean d) ^ 2 := by
    funext x
    simp only [Function.comp_apply]
    ring
  rw [hfun, sum_map_mul_const (k ^ 2) (fun x => (x - mean d) ^ 2)]

lemma svar_map_mul (k : ℚ) (d : List ℚ) :
    svar (d.map (fun x => k * x)) = k ^ 2 * svar d := by
  unfold svar
  rw [List.length_map, sqDevSum_map_mul, mul_div_assoc]

lemma pooledQ_map_mul (k : ℚ) (d1 d2 : List ℚ) :
    pooledQ (d1.map (fun x => k * x)) (d2.map (fun x => k * x))
      = k ^ 2 * pooledQ d1 d2 := by
  unfold pooledQ
  rw [List.length_map, List.length_map, svar_map_mul, svar_map_mul]
  ring

lemma sqDevSum_map_add {c : ℚ} {d : List ℚ} (h : 1 ≤ d.length) :
    sqDevSum (d.map (fun x => x + c)) = sqDevSum d := by
  unfold sqDevSum
  rw [mean_map_add h, List.map_map]
  have hfun : ((fun x => (x - (mean d + c)) ^ 2) ∘ fun x => x + c)
      = fun x => (x - mean d) ^ 2 := by
    funext x
    simp only [Function.comp_apply]
    ring
  rw [hfun]

lemma svar_map_add {c : ℚ} {d : List ℚ} (h : 1 ≤ d.length) :
    svar (d.map (fun x => x + c)) = svar d := by
  unfold svar
  rw [List.length_map, sqDevSum_map_add h]

lemma pooledQ_map_add {c : ℚ} {d1 d2 : List ℚ}
    (h1 : 1 ≤ d1.length) (h2 : 1 ≤ d2.length) :
    pooledQ (d1.map (fun x => x + c)) (d2.map (fun x => x + c))
      = pooledQ d1 d2 := by
  unfold pooledQ
  rw [List.length_map, List.length_map, svar_map_add h1, svar_map_add h2]

lemma mean_perm {d d' : List ℚ} (h : d.Perm d') : mean d = mean d' := by
  unfold mean
  rw [h.sum_eq, h.length_eq]

lemma sqDevSum_perm {d d' : List ℚ} (h : d.Perm d') : sqDevSum d = sqDevSum d' := by
  unfold sqDevSum
  rw [mean_perm h]
  exact (h.map fun x => (x - mean d') ^ 2).sum_eq

lemma svar_perm {d d' : List ℚ} (h : d.Perm d') : svar d = svar d' := by
  unfold svar
  rw [sqDevSum_perm h, h.length_eq]

lemma varOpt_perm {d d' : List ℚ} (h : d.Perm d') : varOpt d = varOpt d' := by
  unfold varOpt
  rw [svar_perm h, h.length_eq]

lemma pooledVar_perm {d1 d1' d2 d2' : List ℚ}
    (h1 : d1.Perm d1') (h2 : d2.Perm d2') :
    pooledVar d1 d2 = pooledVar d1' d2' := by
  unfold pooledVar
  rw [varOpt_perm h1, varOpt_perm h2]
  simp only [h1.length_eq, h2.length_eq]

/-- `cohend` is determined by the pooled-variance stage and the two means. -/
lemma cohend_congr {d1 d2 e1 e2 : List ℚ}
    (hp : pooledVar d1 d2 = pooledVar e1 e2)
    (hm1 : mean d1 = mean e1) (hm2 : mean d2 = mean e2) :
    cohend d1 d2 = cohend e1 e2 := by
  unfold cohend
  rw [hp]
  simp only [hm1, hm2]

/-! ### The claims -/

/-- C1: For every pair of samples with at least 2 observations each and
strictly positive pooled variance (stated with the specification's own
formula, via `specVar`), `cohend` returns exactly the specification's value
`(mean d1 - mean d2) / s` with
`s = sqrt(((n1 - 1) * var1 + (n2 - 1) * var2) / (n1 + n2 - 2))` and `var1`,
`var2` the Bessel-corrected (divisor `n - 1`) sample variances. -/
theorem cohend_matches_spec_formula (d1 d2 : List ℚ)
    (h1 : 2 ≤ d1.length) (h2 : 2 ≤ d2.length)
    (hp : 0 < (((d1.length : ℚ) - 1) * specVar d1 + ((d2.length : ℚ) - 1) * specVar d2) /
      ((d1.length : ℚ) + (d2.length : ℚ) - 2)) :
    cohend d1 d2 = Except.ok (PyFloat.fin (specCohend d1 d2)) := by
  have hp' : 0 < pooledQ d1 d2 := hp
  rw [cohend_eq_fin h1 h2 hp']
  rfl

/-- Witness for C1 at `d1 = [1, 2]`, `d2 = [3, 5]`. -/
theorem cohend_matches_spec_formula_witness :
    (2 ≤ ([(1 : ℚ), 2]).length) ∧ (2 ≤ ([(3 : ℚ), 5]).length) ∧
    (0 < (((([(1 : ℚ), 2]).length : ℚ) - 1) * specVar [(1 : ℚ), 2] +
        ((([(3 : ℚ), 5]).length : ℚ) - 1) * specVar [(3 : ℚ), 5]) /
      ((([(1 : ℚ), 2]).length : ℚ) + (([(3 : ℚ), 5]).length : ℚ) - 2)) ∧
    cohend [(1 : ℚ), 2] [(3 : ℚ), 5]
      = Except.ok (PyFloat.fin (specCohend [(1 : ℚ), 2] [(3 : ℚ), 5])) :=
  ⟨by decide, by decide, by norm_num [specVar, mean],
    cohend_matches_spec_formula [(1 : ℚ), 2] [(3 : ℚ), 5] (by decide) (by decide)
      (by norm_num [specVar, mean])⟩

/-- C2 counterexample: at `d1 = [1]` (a sample of size 1) the call does not
fail at all — no exception of any kind is raised, in particular not the
specification's `InvalidInput` — it returns normally, carrying numpy's
silently propagated NaN. -/
theorem cohend_size_one_returns_nan :
    cohend [(1 : ℚ)] [2, 3, 4] = Except.ok PyFloat.nan ∧
    cohend [(1 : ℚ)] [2, 3, 4] ≠ Except.error PyExc.invalidInput := by
  have h : cohend [(1 : ℚ)] [2, 3, 4] = Except.ok PyFloat.nan := rfl
  refine ⟨h, ?_⟩
  rw [h]
  intro hc
  exact Except.noConfusion hc

/-- C2 amended: for every input where either sample has fewer than 2
observations, or `n1 + n2 - 2 ≤ 0`, `cohend` does not raise an
`InvalidInput` error; it returns normally with the NaN sentinel (numpy
propagates NaN from the variance stage, with a RuntimeWarning only). -/
theorem cohend_invalid_input_returns_nan (d1 d2 : List ℚ)
    (h : d1.length < 2 ∨ d2.length < 2 ∨ d1.length + d2.length ≤ 2) :
    cohend d1 d2 = Except.ok PyFloat.nan := by
  apply cohend_eq_nan_of_short
  omega

/-- Witness for the amended C2 at `d1 = [1]`, `d2 = [2, 3, 4]`. -/
theorem cohend_invalid_input_returns_nan_witness :
    (([(1 : ℚ)]).length < 2 ∨ ([(2 : ℚ), 3, 4]).length < 2 ∨
      ([(1 : ℚ)]).length + ([(2 : ℚ), 3, 4]).length ≤ 2) ∧
    cohend [(1 : ℚ)] [2, 3, 4] = Except.ok PyFloat.nan :=
  ⟨by decide, cohend_invalid_input_returns_nan [(1 : ℚ)] [2, 3, 4] (by decide)⟩

/-- C7: `cohend` is a pure, deterministic function of its two samples: the
embedding is a function of `d1` and `d2` alone (the source body reads no
ambient state and writes none), so any two invocations on the same samples
produce the identical outcome. -/
theorem cohend_deterministic (d1 d2 : List ℚ) (r1 r2 : Except PyExc PyFloat)
    (ha : cohend d1 d2 = r1) (hb : cohend d1 d2 = r2) : r1 = r2 :=
  ha ▸ hb ▸ rfl

/-- Witness for C7: two invocations on `[1, 2]`, `[3, 4]` agree. -/
theorem cohend_deterministic_witness :
    cohend [(1 : ℚ), 2] [3, 4] = cohend [(1 : ℚ), 2] [3, 4] :=
  cohend_deterministic [(1 : ℚ), 2] [3, 4] _ _ rfl rfl

/-- C9: under the preconditions — both samples have at least 2 observations
and the pooled variance (equivalently, the pooled standard deviation) is
strictly positive — `cohend` returns an ordinary finite real number: the
division by zero and the NaN paths are not reached, and no error is
raised. -/
theorem cohend_finite_of_pos_pooled (d1 d2 : List ℚ)
    (h1 : 2 ≤ d1.length) (h2 : 2 ≤ d2.length) (hp : 0 < pooledQ d1 d2) :
    ∃ r : ℝ, cohend d1 d2 = Except.ok (PyFloat.fin r) :=
  ⟨_, cohend_eq_fin h1 h2 hp⟩

/-- Witness for C9 at `d1 = [1, 2]`, `d2 = [3, 4]`. -/
theorem cohend_finite_of_pos_pooled_witness :
    (2 ≤ ([(1 : ℚ), 2]).length) ∧ (2 ≤ ([(3 : ℚ), 4]).length) ∧
    (0 < pooledQ [(1 : ℚ), 2] [3, 4]) ∧
    ∃ r : ℝ, cohend [(1 : ℚ), 2] [3, 4] = Except.ok (PyFloat.fin r) :=
  ⟨by decide, by decide, by norm_num [pooledQ, svar, sqDevSum, mean],
    cohend_finite_of_pos_pooled [(1 : ℚ), 2] [3, 4] (by decide) (by decide)
      (by norm_num [pooledQ, svar, sqDevSum, mean])⟩

/-- When the pooled variance is exactly zero (both samples of size at least
2), `cohend` reduces to the final float division by zero. -/
lemma cohend_of_pooled_zero {d1 d2 : List ℚ} (h1 : 2 ≤ d1.length)
    (h2 : 2 ≤ d2.length) (hp : pooledQ d1 d2 = 0) :
    cohend d1 d2 =
      (if mean d1 = mean d2 then Except.ok PyFloat.nan
       else if mean d2 < mean d1 then Except.ok PyFloat.inf
       else Except.ok PyFloat.neginf) := by
  unfold cohend
  rw [pooledVar_eq h1 h2, hp]
  norm_num

/-- C3: for every pair of samples (each with at least 2 observations) whose
pooled standard deviation is exactly zero, the division by zero surfaces as
one of the non-finite sentinels NaN, +inf, -inf — per the specification's
own reading, the `DegenerateInput` signal — and never as an ordinary finite
numeric result, so it is distinguishable from a legitimate zero. -/
theorem cohend_degenerate_signals (d1 d2 : List ℚ)
    (h1 : 2 ≤ d1.length) (h2 : 2 ≤ d2.length) (hp : pooledQ d1 d2 = 0) :
    (cohend d1 d2 = Except.ok PyFloat.nan ∨ cohend d1 d2 = Except.ok PyFloat.inf ∨
      cohend d1 d2 = Except.ok PyFloat.neginf) ∧
    ∀ r : ℝ, cohend d1 d2 ≠ Except.ok (PyFloat.fin r) := by
  have hstep := cohend_of_pooled_zero h1 h2 hp
  constructor
  · rw [hstep]
    by_cases hm : mean d1 = mean d2
    · left
      simp [hm]
    · by_cases hlt : mean d2 < mean d1
      · right; left
        simp [hm, hlt]
      · right; right
        simp [hm, hlt]
  · intro r
    rw [hstep]
    split_ifs <;> simp

/-- Witness for C3 at the specification's scenario `[5,5,5]` vs `[5,5,5]`. -/
theorem cohend_degenerate_signals_witness :
    (2 ≤ ([(5 : ℚ), 5, 5]).length) ∧ (pooledQ [(5 : ℚ), 5, 5] [5, 5, 5] = 0) ∧
    ((cohend [(5 : ℚ), 5, 5] [5, 5, 5] = Except.ok PyFloat.nan ∨
      cohend [(5 : ℚ), 5, 5] [5, 5, 5] = Except.ok PyFloat.inf ∨
      cohend [(5 : ℚ), 5, 5] [5, 5, 5] = Except.ok PyFloat.neginf) ∧
     ∀ r : ℝ, cohend [(5 : ℚ), 5, 5] [5, 5, 5] ≠ Except.ok (PyFloat.fin r)) :=
  ⟨by decide, by norm_num [pooledQ, svar, sqDevSum, mean],
    cohend_degenerate_signals [(5 : ℚ), 5, 5] [5, 5, 5] (by decide) (by decide)
      (by norm_num [pooledQ, svar, sqDevSum, mean])⟩

/-- C5: for a sample `A` with at least 2 observations, `cohend A A` is the
finite value `0` when `A` has non-zero variance; when `A` has zero variance
the result is the NaN sentinel — the degenerate-input signal — and not an
ordinary numeric `0/0`-style value. -/
theorem cohend_self (A : List ℚ) (h : 2 ≤ A.length) :
    (svar A ≠ 0 → cohend A A = Except.ok (PyFloat.fin 0)) ∧
    (svar A = 0 → cohend A A = Except.ok PyFloat.nan ∧
      ∀ r : ℝ, cohend A A ≠ Except.ok (PyFloat.fin r)) := by
  constructor
  · intro hv
    have hvpos : 0 < svar A := (svar_nonneg h).lt_of_ne (Ne.symm hv)
    have hc : (2 : ℚ) ≤ (A.length : ℚ) := by exact_mod_cast h
    have hp : 0 < pooledQ A A := by
      unfold pooledQ
      apply div_pos
      · nlinarith
      · linarith
    rw [cohend_eq_fin h h hp]
    norm_num
  · intro hv
    have hp : pooledQ A A = 0 := by
      unfold pooledQ
      rw [hv]
      ring
    have hstep : cohend A A = Except.ok PyFloat.nan := by
      rw [cohend_of_pooled_zero h h hp]
      simp
    refine ⟨hstep, ?_⟩
    intro r
    rw [hstep]
    simp

/-- Witness for C5 at `A = [1, 2]` (non-degenerate branch). -/
theorem cohend_self_witness :
    (2 ≤ ([(1 : ℚ), 2]).length) ∧ (svar [(1 : ℚ), 2] ≠ 0) ∧
    cohend [(1 : ℚ), 2] [(1 : ℚ), 2] = Except.ok (PyFloat.fin 0) :=
  ⟨by decide, by norm_num [svar, sqDevSum, mean],
    (cohend_self [(1 : ℚ), 2] (by decide)).1 (by norm_num [svar, sqDevSum, mean])⟩

lemma pooledQ_comm (d1 d2 : List ℚ) : pooledQ d2 d1 = pooledQ d1 d2 := by
  unfold pooledQ
  ring

/-- C4: for samples `A`, `B` of equal size and equal variance (each with at
least 2 observations, pooled variance strictly positive), swapping the
arguments negates the result: both calls return finite values and the
values are negatives of each other. -/
theorem cohend_antisymm (A B : List ℚ) (hlen : A.length = B.length)
    (hvar : svar A = svar B) (h1 : 2 ≤ A.length) (hp : 0 < pooledQ A B) :
    ∃ x : ℝ, cohend A B = Except.ok (PyFloat.fin x) ∧
      cohend B A = Except.ok (PyFloat.fin (-x)) := by
  have h2 : 2 ≤ B.length := hlen ▸ h1
  have hp' : 0 < pooledQ B A := (pooledQ_comm A B) ▸ hp
  refine ⟨_, cohend_eq_fin h1 h2 hp, ?_⟩
  rw [cohend_eq_fin h2 h1 hp']
  simp only [Except.ok.injEq, PyFloat.fin.injEq]
  rw [pooledQ_comm A B]
  push_cast
  ring

/-- Witness for C4 at `A = [1, 2]`, `B = [3, 4]` (equal sizes, equal
variances `1/2`). -/
theorem cohend_antisymm_witness :
    (([(1 : ℚ), 2]).length = ([(3 : ℚ), 4]).length) ∧
    (svar [(1 : ℚ), 2] = svar [(3 : ℚ), 4]) ∧
    (2 ≤ ([(1 : ℚ), 2]).length) ∧ (0 < pooledQ [(1 : ℚ), 2] [3, 4]) ∧
    ∃ x : ℝ, cohend [(1 : ℚ), 2] [3, 4] = Except.ok (PyFloat.fin x) ∧
      cohend [(3 : ℚ), 4] [(1 : ℚ), 2] = Except.ok (PyFloat.fin (-x)) :=
  ⟨by decide, by norm_num [svar, sqDevSum, mean], by decide,
    by norm_num [pooledQ, svar, sqDevSum, mean],
    cohend_antisymm [(1 : ℚ), 2] [3, 4] (by decide)
      (by norm_num [svar, sqDevSum, mean]) (by decide)
      (by norm_num [pooledQ, svar, sqDevSum, mean])⟩

/-- C6: multiplying every observation of both samples by a positive constant
`k` leaves the result unchanged (both the mean difference and the pooled
standard deviation scale by `k`). -/
theorem cohend_scale_invariant (k : ℚ) (hk : 0 < k) (d1 d2 : List ℚ)
    (h1 : 2 ≤ d1.length) (h2 : 2 ≤ d2.length) (hp : 0 < pooledQ d1 d2) :
    cohend (d1.map (fun x => k * x)) (d2.map (fun x => k * x)) = cohend d1 d2 := by
  have h1' : 2 ≤ (d1.map (fun x => k * x)).length := by
    rw [List.length_map]; exact h1
  have h2' : 2 ≤ (d2.map (fun x => k * x)).length := by
    rw [List.length_map]; exact h2
  have hps : 0 < pooledQ (d1.map (fun x => k * x)) (d2.map (fun x => k * x)) := by
    rw [pooledQ_map_mul]
    positivity
  rw [cohend_eq_fin h1' h2' hps, cohend_eq_fin h1 h2 hp]
  simp only [Except.ok.injEq, PyFloat.fin.injEq]
  rw [mean_map_mul, mean_map_mul, pooledQ_map_mul]
  have hkR : (0 : ℝ) < (k : ℝ) := by exact_mod_cast hk
  push_cast
  rw [show ((k : ℝ) ^ 2 * ((pooledQ d1 d2 : ℚ) : ℝ)) =
      ((k : ℝ)) ^ 2 * ((pooledQ d1 d2 : ℚ) : ℝ) from rfl,
    Real.sqrt_mul (sq_nonneg ((k : ℝ))) (((pooledQ d1 d2 : ℚ) : ℝ)),
    Real.sqrt_sq hkR.le,
    show (k : ℝ) * ((mean d1 : ℚ) : ℝ) - (k : ℝ) * ((mean d2 : ℚ) : ℝ) =
      (k : ℝ) * (((mean d1 : ℚ) : ℝ) - ((mean d2 : ℚ) : ℝ)) from by ring,
    mul_div_mul_left _ _ (ne_of_gt hkR)]

/-- Witness for C6 at `k = 2`, `d1 = [1, 2]`, `d2 = [3, 4]`. -/
theorem cohend_scale_invariant_witness :
    ((0 : ℚ) < 2) ∧ (2 ≤ ([(1 : ℚ), 2]).length) ∧ (2 ≤ ([(3 : ℚ), 4]).length) ∧
    (0 < pooledQ [(1 : ℚ), 2] [3, 4]) ∧
    cohend (([(1 : ℚ), 2]).map (fun x => 2 * x)) (([(3 : ℚ), 4]).map (fun x => 2 * x))
      = cohend [(1 : ℚ), 2] [3, 4] :=
  ⟨by norm_num, by decide, by decide,
    by norm_num [pooledQ, svar, sqDevSum, mean],
    cohend_scale_invariant 2 (by norm_num) [(1 : ℚ), 2] [3, 4] (by decide) (by decide)
      (by norm_num [pooledQ, svar, sqDevSum, mean])⟩

/-- C8: the result of `cohend` depends only on the multiset of observations
of each sample — permuting the observations within either sample leaves the
outcome unchanged (only count, mean and variance enter the computation). -/
theorem cohend_perm_invariant (d1 d1' d2 d2' : List ℚ)
    (h1 : d1.Perm d1') (h2 : d2.Perm d2') :
    cohend d1 d2 = cohend d1' d2' :=
  cohend_congr (pooledVar_perm h1 h2) (mean_perm h1) (mean_perm h2)

/-- Witness for C8: permuting `[1, 2, 3]` to `[3, 1, 2]` and `[4, 5]` to
`[5, 4]` leaves the result unchanged. -/
theorem cohend_perm_invariant_witness :
    (([(1 : ℚ), 2, 3]).Perm [3, 1, 2]) ∧ (([(4 : ℚ), 5]).Perm [5, 4]) ∧
    cohend [(1 : ℚ), 2, 3] [(4 : ℚ), 5] = cohend [(3 : ℚ), 1, 2] [(5 : ℚ), 4] :=
  ⟨by decide, by decide,
    cohend_perm_invariant [(1 : ℚ), 2, 3] [3, 1, 2] [(4 : ℚ), 5] [5, 4]
      (by decide) (by decide)⟩

/-- C10: adding the same constant `c` to every observation of both samples
leaves the result unchanged — the mean difference and both variances are
translation invariant. -/
theorem cohend_shift_invariant (c : ℚ) (d1 d2 : List ℚ)
    (h1 : 2 ≤ d1.length) (h2 : 2 ≤ d2.length) (hp : 0 < pooledQ d1 d2) :
    cohend (d1.map (fun x => x + c)) (d2.map (fun x => x + c)) = cohend d1 d2 := by
  have e1 : 1 ≤ d1.length := le_trans one_le_two h1
  have e2 : 1 ≤ d2.length := le_trans one_le_two h2
  have h1' : 2 ≤ (d1.map (fun x => x + c)).length := by
    rw [List.length_map]; exact h1
  have h2' : 2 ≤ (d2.map (fun x => x + c)).length := by
    rw [List.length_map]; exact h2
  have hps : 0 < pooledQ (d1.map (fun x => x + c)) (d2.map (fun x => x + c)) := by
    rw [pooledQ_map_add e1 e2]
    exact hp
  rw [cohend_eq_fin h1' h2' hps, cohend_eq_fin h1 h2 hp]
  simp only [Except.ok.injEq, PyFloat.fin.injEq]
  rw [mean_map_add e1, mean_map_add e2, pooledQ_map_add e1 e2]
  push_cast
  ring

/-- Witness for C10 at `c = 7`, `d1 = [1, 2]`, `d2 = [3, 4]`. -/
theorem cohend_shift_invariant_witness :
    (2 ≤ ([(1 : ℚ), 2]).length) ∧ (2 ≤ ([(3 : ℚ), 4]).length) ∧
    (0 < pooledQ [(1 : ℚ), 2] [3, 4]) ∧
    cohend (([(1 : ℚ), 2]).map (fun x => x + 7)) (([(3 : ℚ), 4]).map (fun x => x + 7))
      = cohend [(1 : ℚ), 2] [3, 4] :=
  ⟨by decide, by decide, by norm_num [pooledQ, svar, sqDevSum, mean],
    cohend_shift_invariant 7 [(1 : ℚ), 2] [3, 4] (by decide) (by decide)
      (by norm_num [pooledQ, svar, sqDevSum, mean])⟩

end EffectSize
